import Mathlib

/-!
# CircuitWeaver orchestration core — shallow embedding and verification

This file embeds the control logic of the CircuitWeaver repository
(`src/core/orchestrator.py`, `src/core/solution_miner.py`,
`src/db/knowledge_base.py`, `src/utils/layout_analyzer.py`,
`src/sandbox/local_sandbox.py`) into Lean and proves properties of it.

Modelling conventions:
* External effectful collaborators (the sandbox verdict for a given script,
  the retrieval service, the knowledge-base lookup) are passed in as explicit
  functions or per-round data; the control flow around them is translated
  line by line from the Python source.
* Python floats in the layout analyzer become exact rationals (`ℚ`); the
  literal tolerances `1e-6` and `1e-9` become the exact rationals
  `1/1000000` and `1/1000000000`.
* Python's `str.strip()` is modelled by dropping leading and trailing
  characters satisfying `Char.isWhitespace` (the whitespace sets differ only
  on `\x0b`/`\x0c`, which no claim touches).
-/

namespace CircuitWeaver

/-! ## String helpers -/

/-- Python's `str.strip()` on a character list: drop leading and trailing
whitespace. -/
def stripChars (cs : List Char) : List Char :=
  ((cs.dropWhile Char.isWhitespace).reverse.dropWhile Char.isWhitespace).reverse

/-- Python's `str.strip()` on a `String`. -/
def pyStrip (s : String) : String :=
  String.mk (stripChars s.data)

/-- `startsWithChars needle hay` is true when `needle` is an initial segment
of `hay` (character lists). -/
def startsWithChars : List Char → List Char → Bool
  | [], _ => true
  | _ :: _, [] => false
  | a :: as, b :: bs => a == b && startsWithChars as bs

/-- Index of the first occurrence of the (non-empty) pattern `needle` inside
`hay`, if any.  This models the leftmost-match rule of Python's `re.search`. -/
def findMarker (needle : List Char) : List Char → Option Nat
  | [] => if startsWithChars needle [] then some 0 else none
  | c :: t =>
      if startsWithChars needle (c :: t) then some 0
      else (findMarker needle t).map (· + 1)

/-- Embeds `CircuitWeaverOrchestrator._extract_python_code`
(`src/core/orchestrator.py` lines 314-316):

    match = re.search(r"```python\n(.*?)\n```", content, re.DOTALL)
    return match.group(1).strip() if match else ""

With `re.DOTALL` and a lazy group, `re.search` matches at the leftmost
occurrence of the opening fence and closes at the earliest following
`"\n```"`; if the leftmost opening fence has no closing fence after it, no
later opening fence can have one either, so returning `""` in that case is
exactly the Python behaviour. -/
def extract_python_code (content : String) : String :=
  let cs := content.data
  let marker := "```python\n".data
  match findMarker marker cs with
  | none => ""
  | some i =>
      let rest := cs.drop (i + marker.length)
      match findMarker "\n```".data rest with
      | none => ""
      | some j => pyStrip (String.mk (rest.take j))

/-! ## Candidate race and validation
(`_race_models_for_fix` / `_find_and_validate_fixes`,
`src/core/orchestrator.py` lines 264-312)

`_race_models_for_fix` invokes all fixer LLMs concurrently and collects their
non-empty responses into a dict in `as_completed` (arrival) order, dropping
models whose invocation raised or returned empty content.  We model the
outcome of the race as that arrival-ordered association list
`responses : List (Nat × String)` of (model index, raw response content).

The sandbox (`LocalCodeSandbox.run`) is modelled as a function
`sandbox : String → Bool × String` from the script text to
(success, error_output); each Python call runs in a private fresh directory,
so the verdict depends only on the script text. -/

/-- One entry of the `validated_attempts` list built by
`_find_and_validate_fixes`: `{"code": ..., "is_success": ..., "error": ...}`. -/
structure ValidatedAttempt where
  code : String
  is_success : Bool
  error : String
deriving DecidableEq, Repr

/-- The dictionary returned by `_find_and_validate_fixes`:
`successful_code` is present only on the winner path, `best_attempt_code`
always accompanies a non-`None` return. -/
structure FixResult where
  successful_code : Option String
  best_attempt_code : String
deriving DecidableEq, Repr

/-- The validation loop of `_find_and_validate_fixes` (lines 268-289):
walk the arrival-ordered responses; skip responses with no extractable code;
run each extracted script in the sandbox; stop at the first success.
Returns the winner (if any) and the `validated_attempts` list accumulated up
to the stopping point. -/
def validate_candidates (sandbox : String → Bool × String) :
    List (Nat × String) → Option String × List ValidatedAttempt
  | [] => (none, [])
  | (_, content) :: rest =>
      let code_proposal := extract_python_code content
      if code_proposal = "" then validate_candidates sandbox rest
      else
        let v := sandbox code_proposal
        if v.1 then (some code_proposal, [⟨code_proposal, v.1, v.2⟩])
        else
          let r := validate_candidates sandbox rest
          (r.1, ⟨code_proposal, v.1, v.2⟩ :: r.2)

/-- Embeds `_find_and_validate_fixes` (lines 264-295): the winner, when one
exists, is returned with `successful_code = best_attempt_code`; with no
winner the first validated attempt's code is returned as
`best_attempt_code`; with no validated attempt at all the function returns
`None`. -/
def find_and_validate_fixes (sandbox : String → Bool × String)
    (responses : List (Nat × String)) : Option FixResult :=
  match validate_candidates sandbox responses with
  | (some code, _) => some ⟨some code, code⟩
  | (none, []) => none
  | (none, a :: _) => some ⟨none, a.code⟩

/-- The extracted artifacts of a response list, in arrival order, keeping
only candidates whose response contains a fenced python block
(`if not code_proposal: continue`). -/
def extractedCodes (responses : List (Nat × String)) : List String :=
  responses.filterMap fun r =>
    let c := extract_python_code r.2
    if c = "" then none else some c

/-! ## Runtime debugging loop
(`_runtime_debugging_loop` / `_handle_runtime_error`,
`src/core/orchestrator.py` lines 161-193 and 248-256)

The retrieval tool (`self.rag_tool.forward`) and the knowledge-base lookup
(`self.kb_manager.get_relevant_solutions`) are modelled as functions
`rag kb : String → String` from the query to the returned context text.
The per-round race outcomes (one response list per loop iteration) are the
`rounds` parameter; its length is `settings.MAX_RUNTIME_DEBUG_ATTEMPTS`. -/

/-- Python: `error.strip().split(chr(10))[-1]` — the last line of the
stripped diagnostic, used as the retrieval query. -/
def lastDiagnosticLine (s : String) : String :=
  String.mk (((pyStrip s).data.splitOn '\n').getLastD [])

/-- The data from which `_handle_runtime_error` builds the repair request:
`debugger_prompts.get_debug_prompt(code, error, full_context)` is a pure
formatting function of this triple, so the triple is the information content
of the round's conversation context (the race receives
`history = [HumanMessage(content=prompt)]`, freshly built each round). -/
structure DebugPromptData where
  failed_code : String
  error_message : String
  full_context : String
deriving DecidableEq, Repr

/-- Embeds the context construction in `_handle_runtime_error`
(lines 248-251):

    rag_context = self.rag_tool.forward(query=error.strip().split(...)[-1])
    kb_context = self.kb_manager.get_relevant_solutions(error)
    full_context = f"{rag_context}\n\n{kb_context}".strip()
-/
def handle_runtime_error_context (rag kb : String → String) (error : String) :
    String :=
  pyStrip (rag (lastDiagnosticLine error) ++ "\n\n" ++ kb error)

/-- Outcome of one iteration of the runtime debugging loop body. -/
inductive RoundOutcome where
  /-- `sandbox.run` succeeded: the loop returns the current code. -/
  | succeeded (code : String)
  /-- Validation failed and the race produced code: the loop continues with
  `fix_result["best_attempt_code"]`. -/
  | adopted (next : String) (prompt : DebugPromptData) (error : String)
  /-- Validation failed and no model produced any code: the loop aborts. -/
  | aborted (prompt : DebugPromptData) (error : String)
deriving DecidableEq, Repr

/-- One iteration of the `for` body of `_runtime_debugging_loop`
(lines 166-191): validate the current code; on failure build the repair
request (`_handle_runtime_error`) and race the fixers; adopt
`best_attempt_code` when present, abort otherwise
(`if fix_result and fix_result.get(...)`). -/
def runtime_round (sandbox : String → Bool × String) (rag kb : String → String)
    (code : String) (responses : List (Nat × String)) : RoundOutcome :=
  let v := sandbox code
  if v.1 then .succeeded code
  else
    let prompt : DebugPromptData :=
      ⟨code, v.2, handle_runtime_error_context rag kb v.2⟩
    match find_and_validate_fixes sandbox responses with
    | some fr =>
        if fr.best_attempt_code = "" then .aborted prompt v.2
        else .adopted fr.best_attempt_code prompt v.2
    | none => .aborted prompt v.2

/-- Observable outcome of a full `_runtime_debugging_loop` run:
the returned value, the failure chain at exit, the submission made to the
Solution Miner (the `async_pool.submit(self.solution_miner.mine_and_save_from_chain, ...)`
call is fire-and-forget, so we record the submitted arguments rather than
its effect), and the sequence of repair requests issued. -/
structure RuntimeLoopResult where
  result : Option String
  chain : List (String × String)
  mined : Option (List (String × String) × String)
  prompts : List DebugPromptData
deriving DecidableEq, Repr

/-- The loop of `_runtime_debugging_loop` with the failure chain as explicit
state; the `rounds` list plays the role of the `range(MAX_RUNTIME_DEBUG_ATTEMPTS)`
budget, one entry per iteration. -/
def runtime_loop (sandbox : String → Bool × String) (rag kb : String → String) :
    List (List (Nat × String)) → String → List (String × String) →
    RuntimeLoopResult
  | [], _, chain => ⟨none, chain, none, []⟩
  | rs :: rest, code, chain =>
      match runtime_round sandbox rag kb code rs with
      | .succeeded c =>
          ⟨some c, chain, if chain.isEmpty then none else some (chain, c), []⟩
      | .adopted c p e =>
          let r := runtime_loop sandbox rag kb rest c (chain ++ [(code, e)])
          ⟨r.result, r.chain, r.mined, p :: r.prompts⟩
      | .aborted p e => ⟨none, chain ++ [(code, e)], none, [p]⟩

/-- Embeds `_runtime_debugging_loop` (lines 161-193), starting from an empty
failure chain. -/
def runtime_debugging_loop (sandbox : String → Bool × String)
    (rag kb : String → String) (rounds : List (List (Nat × String)))
    (code_to_debug : String) : RuntimeLoopResult :=
  runtime_loop sandbox rag kb rounds code_to_debug []

/-! ## Knowledge store
(`KnowledgeBaseManager`, `src/db/knowledge_base.py` lines 32-64)

The SQLite table `solutions` declares `error_pattern TEXT NOT NULL UNIQUE`,
and `add_solution` runs `INSERT OR REPLACE`, which deletes any conflicting
row and inserts the new one; the markdown file is opened in append mode and
one block is written per call.  We model the keyed table as an
insertion-ordered association list and the markdown log as the list of
appended (pattern, solution) blocks; the timestamp column plays no role in
the claims and is omitted. -/

/-- The persistent state owned by `KnowledgeBaseManager`: the keyed
`solutions` table and the append-only markdown audit log. -/
structure KnowledgeBase where
  solutions : List (String × String)
  log : List (String × String)
deriving DecidableEq, Repr

/-- The state produced by `_create_table` on a fresh database. -/
def KnowledgeBase.empty : KnowledgeBase := ⟨[], []⟩

/-- Embeds `add_solution` (lines 44-57): `INSERT OR REPLACE` keyed on the
unique `error_pattern` (the conflicting row, if any, is removed and the new
row inserted), followed by `_append_to_markdown` appending one block. -/
def add_solution (kb : KnowledgeBase) (error_pattern solution_summary : String) :
    KnowledgeBase where
  solutions :=
    kb.solutions.filter (fun row => row.1 ≠ error_pattern)
      ++ [(error_pattern, solution_summary)]
  log := kb.log ++ [(error_pattern, solution_summary)]

/-- A sequence of `add_solution` calls applied to a store, in order. -/
def run_upserts (kb : KnowledgeBase) (writes : List (String × String)) :
    KnowledgeBase :=
  writes.foldl (fun acc w => add_solution acc w.1 w.2) kb

/-- The most recent write for a given key within a write sequence (the
value of the last pair whose first component is `key`, if any). -/
def lastWriteFor : List (String × String) → String → Option String
  | [], _ => none
  | w :: rest, key =>
      match lastWriteFor rest key with
      | some s => some s
      | none => if w.1 = key then some w.2 else none

/-! ## Sandbox client
(`LocalCodeSandbox.run`, `src/sandbox/local_sandbox.py` lines 58-116)

`run` writes the script into a fresh work directory, starts `_sandbox_target`
in a separate process and joins it with the configured timeout.  The child's
behaviour is external (it executes arbitrary generated code), so we model
what the parent observes of it: either the process was still alive after the
join (timeout) or it finished, having possibly queued a result message; in
both cases the `stdout.txt` / `stderr.txt` files the child creates on startup
may or may not exist. -/

/-- The message `_sandbox_target` puts on the result queue. -/
inductive QueueMessage where
  /-- `{'status': 'success'}` -/
  | success
  /-- `{'status': 'error', 'output': tb}` -/
  | error (output : String)
deriving DecidableEq, Repr

/-- What the parent observes of the child process after `process.join`. -/
inductive ChildOutcome where
  /-- `process.is_alive()` was true: the child exceeded the timeout.
  `files` holds the contents of `stdout.txt`/`stderr.txt` when the child got
  far enough to create them. -/
  | timedOut (files : Option (String × String))
  /-- The child finished; `queued` is the message on the result queue, if
  any (`result_queue.get_nowait` raises on an empty queue). -/
  | finished (queued : Option QueueMessage) (files : Option (String × String))
deriving DecidableEq, Repr

/-- The value returned by `LocalCodeSandbox.run`, plus whether
`process.terminate()` was invoked on the child. -/
structure SandboxRunResult where
  success : Bool
  error_output : String
  terminated : Bool
deriving DecidableEq, Repr

/-- Embeds the result handling of `LocalCodeSandbox.run` (lines 70-116):
the timeout branch terminates the child and reports the fixed timeout
message; the finished branch decodes the queue message (empty queue becomes
the "terminated unexpectedly" diagnostic); the log-consolidation step then
substitutes the captured stderr for an empty `error_output`, and a missing
log file keeps the existing diagnostic. -/
def LocalCodeSandbox.run (timeout : Nat) (outcome : ChildOutcome) :
    SandboxRunResult :=
  let base : SandboxRunResult :=
    match outcome with
    | .timedOut _ =>
        ⟨false, "Execution timed out (>" ++ toString timeout ++ "s).", true⟩
    | .finished queued _ =>
        match queued with
        | some .success => ⟨true, "", false⟩
        | some (.error output) => ⟨false, output, false⟩
        | none =>
            ⟨false,
             "Sandbox process terminated unexpectedly before producing a result.",
             false⟩
  let files :=
    match outcome with
    | .timedOut fs => fs
    | .finished _ fs => fs
  match files with
  | some (_, stderr_content) =>
      if base.error_output = "" ∧ pyStrip stderr_content ≠ "" then
        { base with error_output := pyStrip stderr_content }
      else base
  | none =>
      if base.error_output = "" then
        { base with error_output := "Sandbox failed to create log files." }
      else base

/-! ## Layout analyzer
(`LayoutAnalyzer`, `src/utils/layout_analyzer.py`)

Scene elements come from a freshly rendered `schemdraw.Drawing`.  In the
library, `Label` and `Line` are distinct element classes, so an element's
`isinstance` class is one of label / line / other.  Python object identity in
`element._attach_to == other_element` is modelled by the element's index in
`drawing.elements` (`attach_to : Option Nat`).  The custom attribute
`_attach_to_element_index` is set only by `_check_overlaps` itself (lines
56-59); reading it on an element where it was never assigned raises
`AttributeError`, which we model with `Option Nat`.  Coordinates are exact
rationals.  The `details` text of an issue is pure presentation (and the
line-issue text renders external `Point.round` reprs), so an issue is
modelled by its kind and its implicated element identifiers. -/

/-- The `isinstance` class of a drawing element. -/
inductive ElemKind where
  | label
  | line
  | other
deriving DecidableEq, Repr

/-- A 2-D point (`element.start` / `element.end`). -/
structure Pt where
  x : ℚ
  y : ℚ
deriving DecidableEq, Repr

/-- An axis-aligned bounding box as returned by `element.get_bbox()`. -/
structure BBox where
  xmin : ℚ
  ymin : ℚ
  xmax : ℚ
  ymax : ℚ
deriving DecidableEq, Repr

/-- One entry of `drawing.elements` as the analyzer reads it.
`bbox = none` models `get_bbox()` raising;
`attach_to` models the label attribute `_attach_to` (by element index);
`attach_to_element_index` models the custom attribute of the same name
(`none` = never assigned, so reading it raises `AttributeError`). -/
structure SceneElement where
  kind : ElemKind
  typeName : String
  text : String
  attach_to : Option Nat
  attach_to_element_index : Option Nat
  bbox : Option BBox
  start : Pt
  stop : Pt
deriving DecidableEq, Repr

/-- Embeds `_get_element_id` (lines 13-20).  For a label it reads
`element._attach_to_element_index`; `none` is the `AttributeError` case. -/
def get_element_id (element : SceneElement) (index : Nat) : Option String :=
  match element.kind with
  | .label =>
      match element.attach_to_element_index with
      | none => none
      | some k =>
          some ("Label \x27" ++ element.text ++ "\x27 (attached to Element_"
                ++ toString k ++ ")")
  | _ => some (element.typeName ++ "_" ++ toString index)

/-- The margin `1e-6` of `_bboxes_overlap`. -/
def overlapMargin : ℚ := 1 / 1000000

/-- Embeds `_bboxes_overlap` (lines 22-29). -/
def bboxes_overlap (bbox1 bbox2 : BBox) : Bool :=
  !(decide (bbox1.xmax < bbox2.xmin + overlapMargin)
    || decide (bbox1.xmin > bbox2.xmax - overlapMargin)
    || decide (bbox1.ymax < bbox2.ymin + overlapMargin)
    || decide (bbox1.ymin > bbox2.ymax - overlapMargin))

/-- Kind tag of a reported issue (`issue['type']`). -/
inductive IssueKind where
  | overlap
  | wiring
deriving DecidableEq, Repr

/-- A reported layout issue: its kind and the implicated element
identifiers (`issue['elements']`). -/
structure LayoutIssue where
  kind : IssueKind
  elements : List String
deriving DecidableEq, Repr

/-- One entry of the `elements_with_bbox` list of `_check_overlaps`:
the element (with its `_element_index` set to `index`), its bounding box and
its precomputed identifier. -/
structure CollectedElement where
  index : Nat
  element : SceneElement
  bbox : BBox
  eid : String
deriving DecidableEq, Repr

/-- The collection loop of `_check_overlaps` (lines 40-48): an element joins
`elements_with_bbox` only when both `get_bbox()` and `_get_element_id`
succeed; any exception skips the element (`except Exception: continue`).
Note that the identifiers are computed here, before the pair loop runs, so a
label whose `_attach_to_element_index` was never assigned raises and is
skipped. -/
def collect_elements (elements : List SceneElement) : List CollectedElement :=
  elements.enum.filterMap fun p =>
    match p.2.bbox with
    | none => none
    | some bbox =>
        match get_element_id p.2 p.1 with
        | none => none
        | some eid => some ⟨p.1, p.2, bbox, eid⟩

/-- The body of the pair loop of `_check_overlaps` (lines 61-71): report an
overlap unless one item is a label whose `_attach_to` is the other item.
(The assignments to `_attach_to_element_index` at lines 56-59 mutate an
attribute that is read only by `_get_element_id`, which already ran during
collection, so they do not affect the issues produced.) -/
def overlap_issue (item1 item2 : CollectedElement) : Option LayoutIssue :=
  if bboxes_overlap item1.bbox item2.bbox then
    if (item1.element.kind = .label ∧ item1.element.attach_to = some item2.index)
       ∨ (item2.element.kind = .label ∧ item2.element.attach_to = some item1.index)
    then none
    else some ⟨.overlap, [item1.eid, item2.eid]⟩
  else none

/-- The `i < j` double loop of `_check_overlaps` (lines 50-71), in iteration
order. -/
def pair_issues : List CollectedElement → List LayoutIssue
  | [] => []
  | x :: rest => rest.filterMap (overlap_issue x) ++ pair_issues rest

/-- Embeds `_check_overlaps` (lines 38-71). -/
def check_overlaps (elements : List SceneElement) : List LayoutIssue :=
  pair_issues (collect_elements elements)

/-- The tolerance `1e-9` of `_check_wiring`. -/
def wireTolerance : ℚ := 1 / 1000000000

/-- The `LAYOUT_ANALYSIS_CONFIG` dictionary (`configs/settings.py`);
`config.get(..., True)` defaults `allow_diagonal_lines` to `True` when the
key is missing, but the shipped configuration always carries it. -/
structure AnalyzerConfig where
  alignment_tolerance : ℚ
  allow_diagonal_lines : Bool
deriving DecidableEq, Repr

/-- The configuration shipped in `configs/settings.py`:
`{'alignment_tolerance': 0.1, 'allow_diagonal_lines': False}`. -/
def layout_analysis_config : AnalyzerConfig := ⟨1 / 10, false⟩

/-- The per-element body of `_check_wiring` (lines 78-90).  A line is
reported when it is neither horizontal nor vertical within tolerance.
(`_get_element_id` cannot fail here: `Line` elements are not labels.) -/
def wiring_issue (i : Nat) (element : SceneElement) : Option LayoutIssue :=
  if element.kind = .line then
    let is_horizontal := |element.start.y - element.stop.y| < wireTolerance
    let is_vertical := |element.start.x - element.stop.x| < wireTolerance
    if ¬is_horizontal ∧ ¬is_vertical then
      match get_element_id element i with
      | some eid => some ⟨.wiring, [eid]⟩
      | none => none
    else none
  else none

/-- Embeds `_check_wiring` (lines 73-90): disabled entirely when diagonal
lines are allowed. -/
def check_wiring (config : AnalyzerConfig) (elements : List SceneElement) :
    List LayoutIssue :=
  if config.allow_diagonal_lines then []
  else elements.enum.filterMap fun p => wiring_issue p.1 p.2

/-- Embeds `run_all_checks` (lines 31-36): overlap issues first, then
wiring issues. -/
def run_all_checks (config : AnalyzerConfig) (elements : List SceneElement) :
    List LayoutIssue :=
  check_overlaps elements ++ check_wiring config elements

/-! ## Layout polishing loop
(`_layout_polishing_loop`, `src/core/orchestrator.py` lines 195-246)

Rendering the working code (the `exec`/`draw()` prelude of each round) is an
external call on generated code; we model its observable outcome per round:
an exception, or a scene whose analysis produced a given issue list.  The
issue list itself is `run_all_checks` applied to the rendered elements, so a
round's render outcome carries the elements and the loop applies the
analyzer to them. -/

/-- Outcome of the `exec`/`draw` prelude of one polishing round. -/
inductive RenderOutcome where
  /-- An exception escaped the `try` block (render failure, missing `d`,
  analyzer crash): the loop returns the current code. -/
  | failed
  /-- Rendering produced these scene elements. -/
  | rendered (elements : List SceneElement)
deriving Repr

/-- The external events of one polishing round: the render outcome for the
current code and the fixer responses of the round's race. -/
structure PolishRound where
  render : RenderOutcome
  responses : List (Nat × String)
deriving Repr

/-- What one iteration of the polishing loop decides. -/
inductive PolishStep where
  /-- The loop returns this artifact. -/
  | done (artifact : String)
  /-- The loop proceeds to the next round with this working artifact. -/
  | cont (artifact : String)
deriving DecidableEq, Repr

/-- The working artifact carried by a `PolishStep`. -/
def PolishStep.artifact : PolishStep → String
  | .done a => a
  | .cont a => a

/-- One iteration of `_layout_polishing_loop` (lines 199-243): analyze; if
no issues return the current code; otherwise race the fixers for a layout
fix, re-validate the proposal in the sandbox, adopt it only on success
(`continue` with the previous code otherwise). -/
def layout_polish_step (sandbox : String → Bool × String)
    (config : AnalyzerConfig) (current_code : String) (round : PolishRound) :
    PolishStep :=
  match round.render with
  | .failed => .done current_code
  | .rendered elements =>
      if (run_all_checks config elements).isEmpty then .done current_code
      else
        match find_and_validate_fixes sandbox round.responses with
        | none => .done current_code
        | some fr =>
            if fr.best_attempt_code = "" then .done current_code
            else
              let proposal := fr.best_attempt_code
              if (sandbox proposal).1 then .cont proposal
              else .cont current_code

/-- Embeds `_layout_polishing_loop` (lines 195-246); the `rounds` list plays
the role of the `range(MAX_LAYOUT_DEBUG_ATTEMPTS)` budget, and exhausting it
returns the current (most recently adopted) code. -/
def layout_polishing_loop (sandbox : String → Bool × String)
    (config : AnalyzerConfig) : List PolishRound → String → String
  | [], current_code => current_code
  | r :: rest, current_code =>
      match layout_polish_step sandbox config current_code r with
      | .done a => a
      | .cont c => layout_polishing_loop sandbox config rest c

/-! ## Auxiliary definitions used by the verification -/

/-- The validation loop restricted to already-extracted artifacts: walking a
list of scripts, sandboxing each, stopping at the first success.
`validate_candidates` factors through this (see
`validate_candidates_eq_runCodes`). -/
def runCodes (sandbox : String → Bool × String) :
    List String → Option String × List ValidatedAttempt
  | [] => (none, [])
  | c :: rest =>
      if (sandbox c).1 then (some c, [⟨c, (sandbox c).1, (sandbox c).2⟩])
      else
        ((runCodes sandbox rest).1,
         ⟨c, (sandbox c).1, (sandbox c).2⟩ :: (runCodes sandbox rest).2)

/-- Modelled from the spec's wording of the orthogonality check: the
line-type elements whose start and end coordinates differ in x beyond
tolerance and also differ in y beyond tolerance (with their positions).
This is the specification-side description, compared against the source-side
`check_wiring` in the wiring theorem. -/
def nonOrthogonalLines (elements : List SceneElement) :
    List (Nat × SceneElement) :=
  elements.enum.filter fun p =>
    decide (p.2.kind = .line)
      && decide (wireTolerance ≤ |p.2.start.x - p.2.stop.x|)
      && decide (wireTolerance ≤ |p.2.start.y - p.2.stop.y|)

/-! # Verified properties -/

/-! ## The candidate race (claims C1, C2) -/

/-- `validate_candidates` is `runCodes` applied to the extracted artifacts:
responses without a fenced python block are skipped and contribute nothing. -/
theorem validate_candidates_eq_runCodes (sandbox : String → Bool × String)
    (responses : List (Nat × String)) :
    validate_candidates sandbox responses =
      runCodes sandbox (extractedCodes responses) := by
  induction responses with
  | nil => rfl
  | cons r rest ih =>
      obtain ⟨i, content⟩ := r
      by_cases h : extract_python_code content = ""
      · simpa [validate_candidates, extractedCodes, List.filterMap_cons, h]
          using ih
      · simp [validate_candidates, extractedCodes, List.filterMap_cons, h,
          runCodes, ih]

/-- The first component of `runCodes` is the first script in order whose
sandbox run succeeds. -/
theorem runCodes_fst (sandbox : String → Bool × String) (l : List String) :
    (runCodes sandbox l).1 = l.find? fun c => (sandbox c).1 := by
  induction l with
  | nil => rfl
  | cons c rest ih =>
      by_cases h : (sandbox c).1 <;>
        simp [runCodes, List.find?_cons, h, ih]

/-- When some script in the list validates, `runCodes` stops at the first
such script `w` and its attempt list covers exactly the failing prefix plus
the winning attempt. -/
theorem runCodes_of_find (sandbox : String → Bool × String)
    (l : List String) (w : String)
    (h : l.find? (fun c => (sandbox c).1) = some w) :
    runCodes sandbox l =
      (some w,
       (l.takeWhile fun c => !(sandbox c).1).map
           (fun c => ⟨c, false, (sandbox c).2⟩)
         ++ [⟨w, true, (sandbox w).2⟩]) := by
  induction l with
  | nil => simp at h
  | cons c rest ih =>
      rw [List.find?_cons] at h
      by_cases hc : (sandbox c).1
      · rw [hc] at h
        obtain rfl : c = w := by simpa using h
        simp [runCodes, hc, List.takeWhile_cons]
      · rw [Bool.not_eq_true] at hc
        rw [hc] at h
        simp only [] at h
        simp [runCodes, hc, List.takeWhile_cons, ih h]

/-- When no script validates, the attempt list of `runCodes` covers every
script, in order. -/
theorem runCodes_none (sandbox : String → Bool × String) (l : List String)
    (h : (runCodes sandbox l).1 = none) :
    (runCodes sandbox l).2.map (·.code) = l := by
  induction l with
  | nil => rfl
  | cons c rest ih =>
      by_cases hc : (sandbox c).1
      · simp [runCodes, hc] at h
      · simp only [runCodes, hc, if_false, Bool.false_eq_true] at h ⊢
        simp [ih h]

/-- C1 (corrected). For every repair race in which at least one candidate's
extracted artifact passes sandbox validation, `_find_and_validate_fixes`
returns exactly one winner — the first candidate, in arrival order, among
those with an extractable artifact, whose validation succeeds — and its
`validated_attempts` record covers exactly the extractable candidates up to
and including the winner (candidates after the winner are never validated
or reported, which is the corrected part of the claim). -/
theorem race_reports_first_arrival_winner (sandbox : String → Bool × String)
    (responses : List (Nat × String))
    (h : ∃ c ∈ extractedCodes responses, (sandbox c).1 = true) :
    ∃ w, (extractedCodes responses).find? (fun c => (sandbox c).1) = some w
      ∧ find_and_validate_fixes sandbox responses = some ⟨some w, w⟩
      ∧ (validate_candidates sandbox responses).2
          = ((extractedCodes responses).takeWhile fun c => !(sandbox c).1).map
              (fun c => ⟨c, false, (sandbox c).2⟩)
            ++ [⟨w, true, (sandbox w).2⟩] := by
  have hs : ((extractedCodes responses).find? fun c => (sandbox c).1).isSome := by
    rw [List.find?_isSome]
    obtain ⟨c, hc, hv⟩ := h
    exact ⟨c, hc, hv⟩
  obtain ⟨w, hw⟩ := Option.isSome_iff_exists.mp hs
  refine ⟨w, hw, ?_, ?_⟩
  · unfold find_and_validate_fixes
    rw [validate_candidates_eq_runCodes, runCodes_of_find sandbox _ w hw]
  · rw [validate_candidates_eq_runCodes, runCodes_of_find sandbox _ w hw]

/-- Witness for `race_reports_first_arrival_winner`: a concrete race with
two candidates whose first extracted artifact validates. -/
theorem race_reports_first_arrival_winner_witness :
    (∃ c ∈ extractedCodes [(0, "```python\nB\n```"), (1, "```python\nC\n```")],
        ((fun c => (decide (c = "B"), "err")) c).1 = true)
    ∧ ∃ w, (extractedCodes [(0, "```python\nB\n```"), (1, "```python\nC\n```")]).find?
            (fun c => ((fun c => (decide (c = "B"), "err")) c).1) = some w
        ∧ find_and_validate_fixes (fun c => (decide (c = "B"), "err"))
            [(0, "```python\nB\n```"), (1, "```python\nC\n```")] = some ⟨some w, w⟩
        ∧ (validate_candidates (fun c => (decide (c = "B"), "err"))
              [(0, "```python\nB\n```"), (1, "```python\nC\n```")]).2
            = ((extractedCodes [(0, "```python\nB\n```"), (1, "```python\nC\n```")]).takeWhile
                 fun c => !((fun c => (decide (c = "B"), "err")) c).1).map
                (fun c => ⟨c, false, ((fun c => (decide (c = "B"), "err")) c).2⟩)
              ++ [⟨w, true, ((fun c => (decide (c = "B"), "err")) w).2⟩] :=
  ⟨by decide,
   race_reports_first_arrival_winner (fun c => (decide (c = "B"), "err"))
     [(0, "```python\nB\n```"), (1, "```python\nC\n```")] (by decide)⟩

/-- C1 counterexample. A race over N = 2 candidates, both with extractable
artifacts, whose first candidate validates: the race returns a winner but
its `validated_attempts` record holds a single `CandidateResult`, not one
per candidate — refuting "the returned result set reports a CandidateResult
for every one of the N candidates" (the winner's early return also reports
no result list at all: the returned dictionary has no `allResults` key). -/
theorem race_results_not_all_candidates_counterexample :
    find_and_validate_fixes (fun c => (decide (c = "B"), "err"))
        [(0, "```python\nB\n```"), (1, "```python\nC\n```")]
      = some ⟨some "B", "B"⟩
    ∧ (validate_candidates (fun c => (decide (c = "B"), "err"))
        [(0, "```python\nB\n```"), (1, "```python\nC\n```")]).2.length
      ≠ [(0, "```python\nB\n```"), (1, "```python\nC\n```")].length := by
  constructor
  · decide
  · decide

/-- Shape of any non-`None` return of `_find_and_validate_fixes`: the
returned `best_attempt_code` is some candidate's extracted artifact; when
there is no winner it is the first extracted candidate's artifact; when
there is a winner it equals it and it validated. -/
theorem find_fixes_some_shape (sandbox : String → Bool × String)
    (responses : List (Nat × String)) (fr : FixResult)
    (h : find_and_validate_fixes sandbox responses = some fr) :
    fr.best_attempt_code ∈ extractedCodes responses
    ∧ (fr.successful_code = none →
        (extractedCodes responses).head? = some fr.best_attempt_code)
    ∧ ∀ w, fr.successful_code = some w →
        fr.best_attempt_code = w ∧ (sandbox w).1 = true := by
  unfold find_and_validate_fixes at h
  rw [validate_candidates_eq_runCodes] at h
  rcases hr : runCodes sandbox (extractedCodes responses) with ⟨w?, atts⟩
  rw [hr] at h
  cases w? with
  | some w =>
      obtain rfl : fr = ⟨some w, w⟩ := by injection h with h'; exact h'.symm
      have hw : (extractedCodes responses).find? (fun c => (sandbox c).1) = some w := by
        rw [← runCodes_fst, hr]
      refine ⟨List.mem_of_find?_eq_some hw, by simp, ?_⟩
      intro w' hw'
      obtain rfl : w = w' := by simpa using hw'
      have hp := List.find?_some hw
      exact ⟨rfl, by simpa using hp⟩
  | none =>
      cases atts with
      | nil => simp at h
      | cons a t =>
          obtain rfl : fr = ⟨none, a.code⟩ := by injection h with h'; exact h'.symm
          have hm : (a :: t).map ValidatedAttempt.code = extractedCodes responses := by
            have := runCodes_none sandbox (extractedCodes responses) (by rw [hr])
            rw [hr] at this
            exact this
          constructor
          · rw [← hm]
            simp
          · refine ⟨fun _ => ?_, by simp⟩
            rw [← hm]
            simp

/-- C2 (confirmed). Whenever the runtime loop round continues with a new
working artifact, that artifact is some candidate's extracted artifact of
that round's race, and — when the race had no winner — it is exactly the
first extracted candidate's artifact.  (When the race yields zero candidates
with artifacts the loop aborts with `None` rather than keeping the previous
artifact, so the working artifact is never reset to any other value.) -/
theorem runtime_round_adopts_candidate_artifact
    (sandbox : String → Bool × String) (rag kb : String → String)
    (code : String) (responses : List (Nat × String))
    (c : String) (p : DebugPromptData) (e : String)
    (h : runtime_round sandbox rag kb code responses = .adopted c p e) :
    c ∈ extractedCodes responses
    ∧ ∃ fr, find_and_validate_fixes sandbox responses = some fr
        ∧ c = fr.best_attempt_code
        ∧ (fr.successful_code = none →
            (extractedCodes responses).head? = some c) := by
  unfold runtime_round at h
  by_cases hv : (sandbox code).1
  · simp [hv] at h
  · rw [Bool.not_eq_true] at hv
    simp only [hv, Bool.false_eq_true, if_false] at h
    rcases hf : find_and_validate_fixes sandbox responses with _ | fr
    · rw [hf] at h
      simp at h
    · rw [hf] at h
      by_cases hb : fr.best_attempt_code = ""
      · simp [hb] at h
      · simp only [hb, if_false, reduceIte] at h
        injection h with h1 h2 h3
        subst h1
        obtain ⟨m1, m2, -⟩ := find_fixes_some_shape sandbox responses fr hf
        exact ⟨m1, fr, rfl, rfl, m2⟩

/-- Witness for `runtime_round_adopts_candidate_artifact`: a round whose
validation fails and whose race has a single (failing) extracted candidate,
which the loop adopts. -/
theorem runtime_round_adopts_candidate_artifact_witness :
    (runtime_round (fun _ => (false, "err")) (fun _ => "") (fun _ => "")
        "A" [(0, "```python\nB\n```")]
      = .adopted "B" ⟨"A", "err", ""⟩ "err")
    ∧ "B" ∈ extractedCodes [(0, "```python\nB\n```")]
    ∧ ∃ fr, find_and_validate_fixes (fun _ => (false, "err"))
          [(0, "```python\nB\n```")] = some fr
        ∧ "B" = fr.best_attempt_code
        ∧ (fr.successful_code = none →
            (extractedCodes [(0, "```python\nB\n```")]).head? = some "B") :=
  ⟨by decide,
   runtime_round_adopts_candidate_artifact (fun _ => (false, "err"))
     (fun _ => "") (fun _ => "") "A" [(0, "```python\nB\n```")]
     "B" ⟨"A", "err", ""⟩ "err" (by decide)⟩

/-! ## Runtime loop: mining and abort behaviour (claims C3, C10) -/

/-- Mining policy of the loop body for an arbitrary starting chain:
a miner submission happens exactly on the success path with a non-empty
failure chain, and then it carries exactly the final chain and the returned
artifact. -/
theorem runtime_loop_mined (sandbox : String → Bool × String)
    (rag kb : String → String) (rounds : List (List (Nat × String)))
    (code : String) (chain : List (String × String)) :
    (runtime_loop sandbox rag kb rounds code chain).mined
      = match (runtime_loop sandbox rag kb rounds code chain).result with
        | some artifact =>
            if (runtime_loop sandbox rag kb rounds code chain).chain.isEmpty
            then none
            else some ((runtime_loop sandbox rag kb rounds code chain).chain,
                       artifact)
        | none => none := by
  induction rounds generalizing code chain with
  | nil => rfl
  | cons rs rest ih =>
      rcases hr : runtime_round sandbox rag kb code rs with c | ⟨c, p, e⟩ | ⟨p, e⟩ <;>
        simp [runtime_loop, hr, ih]

/-- C3 (confirmed). `_runtime_debugging_loop` submits to the Solution Miner
exactly when it terminates successfully with a non-empty FailureChain, and
the submission is that chain plus the returned artifact (the submission is
`async_pool.submit(...)`, a fire-and-forget background dispatch whose
completion the return does not await); whenever the loop returns `None` —
in particular on exhausting `MAX_RUNTIME_DEBUG_ATTEMPTS` — no mining
submission is made and the chain is discarded. -/
theorem runtime_loop_mining_policy (sandbox : String → Bool × String)
    (rag kb : String → String) (rounds : List (List (Nat × String)))
    (code : String) :
    (runtime_debugging_loop sandbox rag kb rounds code).mined
      = match (runtime_debugging_loop sandbox rag kb rounds code).result with
        | some artifact =>
            if (runtime_debugging_loop sandbox rag kb rounds code).chain.isEmpty
            then none
            else some ((runtime_debugging_loop sandbox rag kb rounds code).chain,
                       artifact)
        | none => none :=
  runtime_loop_mined sandbox rag kb rounds code []

/-- With no extractable artifact in any response of a round, the race
returns no validated attempt at all. -/
theorem validate_candidates_no_artifact (sandbox : String → Bool × String)
    (responses : List (Nat × String))
    (h : ∀ r ∈ responses, extract_python_code r.2 = "") :
    validate_candidates sandbox responses = (none, []) := by
  rw [validate_candidates_eq_runCodes]
  have he : extractedCodes responses = [] := by
    unfold extractedCodes
    rw [List.filterMap_eq_nil_iff]
    intro r hr
    simp [h r hr]
  rw [he]
  rfl

/-- C10 (confirmed). If the current artifact fails validation and the
round's race yields no candidate with an extractable artifact (no fenced
python block, or no responses at all), `_runtime_debugging_loop` returns
`None` in that very round — independent of how many budgeted rounds remain —
with no Solution Miner submission. -/
theorem runtime_loop_aborts_without_artifacts
    (sandbox : String → Bool × String) (rag kb : String → String)
    (rs : List (Nat × String)) (rest : List (List (Nat × String)))
    (code : String)
    (h1 : (sandbox code).1 = false)
    (h2 : ∀ r ∈ rs, extract_python_code r.2 = "") :
    runtime_debugging_loop sandbox rag kb (rs :: rest) code
      = ⟨none, [(code, (sandbox code).2)], none,
         [⟨code, (sandbox code).2,
           handle_runtime_error_context rag kb (sandbox code).2⟩]⟩ := by
  have hf : find_and_validate_fixes sandbox rs = none := by
    unfold find_and_validate_fixes
    rw [validate_candidates_no_artifact sandbox rs h2]
  have hr : runtime_round sandbox rag kb code rs
      = .aborted ⟨code, (sandbox code).2,
          handle_runtime_error_context rag kb (sandbox code).2⟩
          (sandbox code).2 := by
    simp [runtime_round, h1, hf]
  unfold runtime_debugging_loop runtime_loop
  rw [hr]
  simp

/-- Witness for `runtime_loop_aborts_without_artifacts`: a failing artifact,
a first round with one artifact-free response, and a remaining budget whose
round would even contain a winning candidate — the loop still returns `None`
immediately. -/
theorem runtime_loop_aborts_without_artifacts_witness :
    (((fun c => (decide (c = "GOOD"), "boom")) "X").1 = false)
    ∧ (∀ r ∈ [((0 : Nat), "no code here")], extract_python_code r.2 = "")
    ∧ runtime_debugging_loop (fun c => (decide (c = "GOOD"), "boom"))
        (fun q => "R:" ++ q) (fun e => "K:" ++ e)
        [[(0, "no code here")], [(0, "```python\nGOOD\n```")]] "X"
      = ⟨none, [("X", "boom")], none, [⟨"X", "boom", "R:boom\n\nK:boom"⟩]⟩ := by
  refine ⟨by decide, by decide, ?_⟩
  have := runtime_loop_aborts_without_artifacts
    (fun c => (decide (c = "GOOD"), "boom"))
    (fun q => "R:" ++ q) (fun e => "K:" ++ e)
    [(0, "no code here")] [[(0, "```python\nGOOD\n```")]] "X"
    (by decide) (by decide)
  rw [this]
  decide

/-! ## Layout polishing safety (claim C4) -/

/-- Per-round safety of the polishing loop: the artifact carried out of one
iteration is either the unchanged previous artifact or the race's
`best_attempt_code` after it re-passed sandbox validation. -/
theorem polish_step_artifact_safe (sandbox : String → Bool × String)
    (config : AnalyzerConfig) (code : String) (round : PolishRound) :
    (layout_polish_step sandbox config code round).artifact = code
    ∨ ((sandbox (layout_polish_step sandbox config code round).artifact).1 = true
       ∧ ∃ fr, find_and_validate_fixes sandbox round.responses = some fr
           ∧ (layout_polish_step sandbox config code round).artifact
               = fr.best_attempt_code) := by
  rcases round with ⟨render, responses⟩
  unfold layout_polish_step
  cases render with
  | failed => exact Or.inl rfl
  | rendered elements =>
      by_cases hi : (run_all_checks config elements).isEmpty
      · simp [hi, PolishStep.artifact]
      · simp only [hi, Bool.false_eq_true, if_false]
        rcases hf : find_and_validate_fixes sandbox responses with _ | fr
        · exact Or.inl rfl
        · by_cases hb : fr.best_attempt_code = ""
          · simp [hb, PolishStep.artifact]
          · simp only [hb, reduceIte]
            by_cases hs : (sandbox fr.best_attempt_code).1
            · simp only [hs, reduceIte]
              exact Or.inr ⟨by simpa [PolishStep.artifact] using hs,
                fr, rfl, rfl⟩
            · rw [Bool.not_eq_true] at hs
              simp only [hs, Bool.false_eq_true, reduceIte]
              exact Or.inl rfl

/-- C4 (confirmed). A layout-fix proposal that fails Sandbox Client
re-validation is never adopted: after each round the working artifact is
either unchanged or equal to the race's proposal and that proposal re-passed
sandbox validation in the round; consequently the artifact returned by the
whole polishing loop is the initial one or one that passed validation. -/
theorem layout_fix_requires_revalidation :
    (∀ (sandbox : String → Bool × String) (config : AnalyzerConfig)
       (code : String) (round : PolishRound),
       (layout_polish_step sandbox config code round).artifact = code
       ∨ ((sandbox (layout_polish_step sandbox config code round).artifact).1 = true
          ∧ ∃ fr, find_and_validate_fixes sandbox round.responses = some fr
              ∧ (layout_polish_step sandbox config code round).artifact
                  = fr.best_attempt_code))
    ∧ ∀ (sandbox : String → Bool × String) (config : AnalyzerConfig)
        (rounds : List PolishRound) (code : String),
        layout_polishing_loop sandbox config rounds code = code
        ∨ (sandbox (layout_polishing_loop sandbox config rounds code)).1 = true := by
  refine ⟨polish_step_artifact_safe, ?_⟩
  intro sandbox config rounds
  induction rounds with
  | nil => exact fun code => Or.inl rfl
  | cons r rest ih =>
      intro code
      rcases hstep : layout_polish_step sandbox config code r with a | c
      · have hsafe := polish_step_artifact_safe sandbox config code r
        rw [hstep] at hsafe
        have hloop : layout_polishing_loop sandbox config (r :: rest) code = a := by
          unfold layout_polishing_loop
          rw [hstep]
        rw [hloop]
        rcases hsafe with h | ⟨h, -⟩
        · exact Or.inl h
        · exact Or.inr h
      · have hsafe := polish_step_artifact_safe sandbox config code r
        rw [hstep] at hsafe
        have hloop : layout_polishing_loop sandbox config (r :: rest) code
            = layout_polishing_loop sandbox config rest c := by
          conv_lhs => rw [layout_polishing_loop]
          rw [hstep]
        rw [hloop]
        rcases ih c with h | h
        · rw [h]
          rcases hsafe with h' | ⟨h', -⟩
          · exact Or.inl h'
          · exact Or.inr h'
        · exact Or.inr h

/-! ## Knowledge store (claim C5) -/

/-- The audit log after a write sequence is the original log with the
writes appended, one block per `add_solution` call. -/
theorem run_upserts_log (kb : KnowledgeBase) (writes : List (String × String)) :
    (run_upserts kb writes).log = kb.log ++ writes := by
  induction writes generalizing kb with
  | nil => simp [run_upserts]
  | cons w rest ih =>
      rw [run_upserts, List.foldl_cons, ← run_upserts, ih]
      simp [add_solution]

/-- Asking for a key among the rows kept for not having that key yields
nothing (stated over the fused predicate produced by `List.filter_filter`). -/
theorem filter_key_after_remove (l : List (String × String)) (p : String) :
    l.filter (fun a => decide (a.1 = p) && decide (a.1 ≠ p)) = [] := by
  induction l with
  | nil => rfl
  | cons a t ih => by_cases h : a.1 = p <;> simp [List.filter_cons, h, ih]

/-- Removing the rows of a different key does not change a key's rows
(stated over the fused predicate produced by `List.filter_filter`). -/
theorem filter_key_after_remove_other (l : List (String × String))
    (p key : String) (h : p ≠ key) :
    l.filter (fun a => decide (a.1 = key) && decide (a.1 ≠ p))
      = l.filter (fun row => row.1 = key) := by
  induction l with
  | nil => rfl
  | cons a t ih =>
      simp only [ne_eq, decide_not] at ih ⊢
      by_cases h2 : a.1 = key
      · have h1 : ¬a.1 = p := fun hh => h (hh.symm.trans h2)
        simp [List.filter_cons, h1, h2, ih, Ne.symm h]
      · simp [List.filter_cons, h2, ih]

/-- The rows of the keyed table holding a given key, after a write sequence:
`none` of the sequence's writes touched the key and the initial rows remain,
or the single row carrying the most recent write. -/
theorem run_upserts_filter (kb : KnowledgeBase) (writes : List (String × String))
    (key : String) :
    (run_upserts kb writes).solutions.filter (fun row => row.1 = key)
      = match lastWriteFor writes key with
        | some sol => [(key, sol)]
        | none => kb.solutions.filter (fun row => row.1 = key) := by
  induction writes generalizing kb with
  | nil => rfl
  | cons w rest ih =>
      obtain ⟨p, s⟩ := w
      rw [run_upserts, List.foldl_cons, ← run_upserts, ih]
      rcases hl : lastWriteFor rest key with _ | sol
      · rw [lastWriteFor, hl]
        by_cases hk : p = key
        · subst hk
          simp only [if_pos rfl]
          rw [add_solution]
          simp only [List.filter_append, List.filter_filter]
          rw [filter_key_after_remove]
          simp
        · simp only [hk, if_neg hk, reduceIte]
          rw [add_solution]
          simp only [List.filter_append, List.filter_filter]
          rw [filter_key_after_remove_other kb.solutions p key hk]
          simp [hk]
      · rw [lastWriteFor, hl]

/-- C5 (confirmed). After any sequence of `add_solution` upserts on a fresh
store: the keyed table holds at most one row per error-pattern key and that
row carries the most recent write for the key; the append-only markdown
audit log records every write, one entry per call — in particular two
upserts of the same pattern leave one keyed row but two audit entries. -/
theorem knowledge_store_last_write_wins (writes : List (String × String))
    (key : String) :
    ((run_upserts KnowledgeBase.empty writes).solutions.filter
        (fun row => row.1 = key)
      = match lastWriteFor writes key with
        | some sol => [(key, sol)]
        | none => [])
    ∧ ((run_upserts KnowledgeBase.empty writes).solutions.filter
        (fun row => row.1 = key)).length ≤ 1
    ∧ (run_upserts KnowledgeBase.empty writes).log = writes
    ∧ run_upserts KnowledgeBase.empty [("p", "s1"), ("p", "s2")]
        = ⟨[("p", "s2")], [("p", "s1"), ("p", "s2")]⟩ := by
  have hfilter := run_upserts_filter KnowledgeBase.empty writes key
  have hmain : (run_upserts KnowledgeBase.empty writes).solutions.filter
      (fun row => row.1 = key)
      = match lastWriteFor writes key with
        | some sol => [(key, sol)]
        | none => [] := by
    rw [hfilter]
    rcases lastWriteFor writes key with _ | sol <;> rfl
  refine ⟨hmain, ?_, run_upserts_log KnowledgeBase.empty writes, by decide⟩
  rw [hmain]
  rcases lastWriteFor writes key with _ | sol <;> simp

/-! ## Round context construction (claim C6) -/

/-- C6 (code bug). The repair request of a round is rebuilt from scratch
from the current artifact's own diagnostic
(`history = [HumanMessage(content=prompt)]` inside
`_find_and_validate_fixes`): two runs that differ only in the diagnostic of
a failed, non-adopted candidate of round 1 (candidate `"C"`, whose sandbox
diagnostic is `"E2"` in one run and `"DIFFERENT"` in the other) produce
identical round-2 repair requests.  No synthesized summary of all failed
candidates' diagnostics is ever appended to any shared context, although
`debugger_prompts.get_debug_prompt` documents and instructs precisely that
("You will see a summary of those failures" / "The conversation history
will now contain a detailed failure summary"). -/
theorem next_round_context_ignores_failed_candidates :
    (runtime_debugging_loop
        (fun c => if c = "B" then (false, "E1")
                  else if c = "C" then (false, "E2") else (false, "E0"))
        (fun q => "R:" ++ q) (fun e => "K:" ++ e)
        [[(0, "```python\nB\n```"), (1, "```python\nC\n```")], []]
        "A").prompts
      = (runtime_debugging_loop
          (fun c => if c = "B" then (false, "E1")
                    else if c = "C" then (false, "DIFFERENT") else (false, "E0"))
          (fun q => "R:" ++ q) (fun e => "K:" ++ e)
          [[(0, "```python\nB\n```"), (1, "```python\nC\n```")], []]
          "A").prompts
    ∧ ((fun c => if c = "B" then (false, "E1")
                 else if c = "C" then (false, "E2") else (false, "E0")) "C").2
      ≠ ((fun c => if c = "B" then (false, "E1")
                   else if c = "C" then (false, "DIFFERENT") else (false, "E0")) "C").2 := by
  constructor
  · decide
  · decide

/-! ## Layout wiring check (claim C8) -/

/-- C8 (confirmed). With diagonal lines disallowed, `_check_wiring` reports
one NonOrthogonalWire issue for exactly the line-type elements whose start
and end differ in x beyond tolerance and also differ in y beyond tolerance,
naming each offending line; with diagonal lines allowed it reports nothing;
and the line from (0,0) to (1,1) under the shipped configuration yields
exactly one issue. -/
theorem wiring_check_characterization :
    (∀ (config : AnalyzerConfig) (elements : List SceneElement),
       check_wiring config elements
         = if config.allow_diagonal_lines then []
           else (nonOrthogonalLines elements).map
             (fun p => ⟨.wiring, [p.2.typeName ++ "_" ++ toString p.1]⟩))
    ∧ check_wiring layout_analysis_config
        [⟨.line, "Line", "", none, none, none, ⟨0, 0⟩, ⟨1, 1⟩⟩]
      = [⟨.wiring, ["Line_0"]⟩] := by
  constructor
  · intro config elements
    unfold check_wiring nonOrthogonalLines
    by_cases hd : config.allow_diagonal_lines
    · simp [hd]
    · simp only [hd, Bool.false_eq_true, if_false, reduceIte]
      induction elements.enum with
      | nil => rfl
      | cons p t ih =>
          rw [List.filterMap_cons, List.filter_cons]
          by_cases h1 : p.2.kind = ElemKind.line
          · by_cases h2 : wireTolerance ≤ |p.2.start.x - p.2.stop.x|
            · by_cases h3 : wireTolerance ≤ |p.2.start.y - p.2.stop.y|
              · rw [wiring_issue, if_pos h1, if_pos ⟨not_lt.mpr h3, not_lt.mpr h2⟩]
                rw [get_element_id]
                rcases hk : p.2.kind with _ | _ | _
                · exact absurd hk (by simp [h1, hk] at h1 ⊢)
                · simp [h1, h2, h3, ih, List.map_cons]
                · rw [hk] at h1
                  exact absurd h1 (by simp)
              · rw [wiring_issue, if_pos h1,
                  if_neg (fun hc => h3 (not_lt.mp hc.1))]
                simpa [h1, h2, h3] using ih
            · by_cases h3 : wireTolerance ≤ |p.2.start.y - p.2.stop.y|
              · rw [wiring_issue, if_pos h1,
                  if_neg (fun hc => h2 (not_lt.mp hc.2))]
                simpa [h1, h2, h3] using ih
              · rw [wiring_issue, if_pos h1,
                  if_neg (fun hc => h2 (not_lt.mp hc.2))]
                simpa [h1, h2, h3] using ih
          · rw [wiring_issue, if_neg h1]
            simpa [h1] using ih
  · norm_num [check_wiring, wiring_issue, wireTolerance, get_element_id,
      layout_analysis_config, List.enum, List.enumFrom, List.filterMap_cons]
    decide

/-! ## Sandbox timeout handling (claim C9) -/

/-- The fixed timeout diagnostic is never the empty string. -/
theorem timeout_message_ne_empty (timeout : Nat) :
    "Execution timed out (>" ++ toString timeout ++ "s)." ≠ "" := by
  intro h
  have hd := congrArg String.data h
  rw [String.data_append, String.data_append] at hd
  exact absurd hd (by simp [String.data])

/-- C9 (confirmed). Whenever the sandboxed child process is still alive
after the timed `join`, `LocalCodeSandbox.run` terminates it and returns
`success = false` together with the fixed timeout diagnostic — whether or
not the child got far enough to create its log files — as an ordinary
returned value (callers branch on the flag; nothing is raised). -/
theorem sandbox_timeout_fixed_message (timeout : Nat)
    (files : Option (String × String)) :
    LocalCodeSandbox.run timeout (.timedOut files)
      = ⟨false, "Execution timed out (>" ++ toString timeout ++ "s).", true⟩ := by
  cases files with
  | none =>
      rw [LocalCodeSandbox.run]
      simp [timeout_message_ne_empty timeout]
  | some fs =>
      rw [LocalCodeSandbox.run]
      simp [timeout_message_ne_empty timeout]

/-! ## Layout overlap check and labels (claim C7) -/

/-- C7 counterexample. A parent element, a label attached to it, and a third
element whose box overlaps the label's: the label's box demonstrably
overlaps the third element's, yet `run_all_checks` reports no issue at all —
because `_get_element_id` reads `_attach_to_element_index`, which is only
assigned later in the pair loop, so every label raises `AttributeError`
during collection and is skipped before any pair is compared.  This refutes
"that label is still checked for overlap against every other element". -/
theorem label_overlap_counterexample :
    bboxes_overlap ⟨1, 1, 3, 3⟩ ⟨5/2, 5/2, 4, 4⟩ = true
    ∧ run_all_checks layout_analysis_config
        [⟨.other, "Resistor", "", none, none, some ⟨0, 0, 2, 2⟩, ⟨0, 0⟩, ⟨0, 0⟩⟩,
         ⟨.label, "Label", "R1", some 0, none, some ⟨1, 1, 3, 3⟩, ⟨0, 0⟩, ⟨0, 0⟩⟩,
         ⟨.other, "Capacitor", "", none, none, some ⟨5/2, 5/2, 4, 4⟩, ⟨0, 0⟩, ⟨0, 0⟩⟩]
      = [] := by
  constructor
  · norm_num [bboxes_overlap, overlapMargin]
  · norm_num [run_all_checks, check_overlaps, check_wiring, collect_elements,
      get_element_id, pair_issues, overlap_issue, bboxes_overlap, overlapMargin,
      wiring_issue, wireTolerance, layout_analysis_config, List.enum,
      List.enumFrom, List.filterMap_cons]

/-- Membership in `pair_issues` comes from a pair of collected elements. -/
theorem mem_pair_issues (l : List CollectedElement) (iss : LayoutIssue)
    (h : iss ∈ pair_issues l) :
    ∃ c1 c2, c1 ∈ l ∧ c2 ∈ l ∧ overlap_issue c1 c2 = some iss := by
  induction l with
  | nil => simp [pair_issues] at h
  | cons x rest ih =>
      rw [pair_issues, List.mem_append] at h
      rcases h with h | h
      · rw [List.mem_filterMap] at h
        obtain ⟨y, hy, hxy⟩ := h
        exact ⟨x, y, List.mem_cons_self x rest, List.mem_cons_of_mem x hy, hxy⟩
      · obtain ⟨c1, c2, h1, h2, h3⟩ := ih h
        exact ⟨c1, c2, List.mem_cons_of_mem x h1, List.mem_cons_of_mem x h2, h3⟩

/-- On a freshly rendered drawing no element carries the custom
`_attach_to_element_index` attribute, so every label fails identifier
construction and is excluded from `elements_with_bbox`. -/
theorem collect_elements_no_labels (elements : List SceneElement)
    (h : ∀ e ∈ elements, e.attach_to_element_index = none) :
    ∀ ce ∈ collect_elements elements, ce.element.kind ≠ ElemKind.label := by
  intro ce hce
  rw [collect_elements, List.mem_filterMap] at hce
  obtain ⟨p, hp, hpe⟩ := hce
  have hmem : p.2 ∈ elements :=
    List.getElem?_mem (List.mem_enum_iff_getElem?.mp hp)
  have hnone := h p.2 hmem
  rcases hb : p.2.bbox with _ | bbox <;> rw [hb] at hpe
  · simp at hpe
  · rcases hi : get_element_id p.2 p.1 with _ | eid <;> rw [hi] at hpe
    · simp at hpe
    · have hinj : CollectedElement.mk p.1 p.2 bbox eid = ce := by
        simpa using hpe
      intro hlabel
      have hkind : p.2.kind = ElemKind.label := by
        rw [← hinj] at hlabel
        exact hlabel
      simp [get_element_id, hkind, hnone] at hi

/-- C7 (corrected). On a fresh analysis (no element carries the custom
`_attach_to_element_index` attribute), a label-type element is never
implicated in any overlap issue — not with its parent, and not with any
other element either, because labels are skipped during collection — and
every reported overlap issue names two non-label collected elements whose
boxes overlap. -/
theorem overlap_check_excludes_labels (elements : List SceneElement)
    (h : ∀ e ∈ elements, e.attach_to_element_index = none) :
    (∀ ce ∈ collect_elements elements, ce.element.kind ≠ ElemKind.label)
    ∧ ∀ iss ∈ check_overlaps elements, ∃ c1 c2,
        c1 ∈ collect_elements elements ∧ c2 ∈ collect_elements elements
        ∧ c1.element.kind ≠ ElemKind.label ∧ c2.element.kind ≠ ElemKind.label
        ∧ bboxes_overlap c1.bbox c2.bbox = true
        ∧ iss.elements = [c1.eid, c2.eid] := by
  refine ⟨collect_elements_no_labels elements h, ?_⟩
  intro iss hiss
  rw [check_overlaps] at hiss
  obtain ⟨c1, c2, h1, h2, h3⟩ := mem_pair_issues _ iss hiss
  have k1 := collect_elements_no_labels elements h c1 h1
  have k2 := collect_elements_no_labels elements h c2 h2
  refine ⟨c1, c2, h1, h2, k1, k2, ?_, ?_⟩
  · by_contra hov
    rw [overlap_issue, if_neg] at h3
    · exact Option.noConfusion h3
    · intro hb
      exact hov (by simpa using hb)
  · rw [overlap_issue] at h3
    by_cases hov : bboxes_overlap c1.bbox c2.bbox = true
    · rw [if_pos hov, if_neg] at h3
      · obtain rfl : LayoutIssue.mk .overlap [c1.eid, c2.eid] = iss := by
          injection h3
        rfl
      · rintro (⟨hl, -⟩ | ⟨hl, -⟩)
        · exact k1 hl
        · exact k2 hl
    · rw [if_neg hov] at h3
      exact Option.noConfusion h3

/-- Witness for `overlap_check_excludes_labels`: the concrete
parent/label/third-element scene of a fresh drawing. -/
theorem overlap_check_excludes_labels_witness :
    (∀ e ∈ [(⟨.other, "Resistor2", "", none, none, some ⟨0, 0, 2, 2⟩, ⟨0, 0⟩, ⟨0, 0⟩⟩ : SceneElement),
            ⟨.label, "Label", "R2", some 0, none, some ⟨1, 1, 3, 3⟩, ⟨0, 0⟩, ⟨0, 0⟩⟩],
        e.attach_to_element_index = none)
    ∧ ((∀ ce ∈ collect_elements
          [⟨.other, "Resistor2", "", none, none, some ⟨0, 0, 2, 2⟩, ⟨0, 0⟩, ⟨0, 0⟩⟩,
           ⟨.label, "Label", "R2", some 0, none, some ⟨1, 1, 3, 3⟩, ⟨0, 0⟩, ⟨0, 0⟩⟩],
          ce.element.kind ≠ ElemKind.label)
       ∧ ∀ iss ∈ check_overlaps
            [⟨.other, "Resistor2", "", none, none, some ⟨0, 0, 2, 2⟩, ⟨0, 0⟩, ⟨0, 0⟩⟩,
             ⟨.label, "Label", "R2", some 0, none, some ⟨1, 1, 3, 3⟩, ⟨0, 0⟩, ⟨0, 0⟩⟩],
           ∃ c1 c2,
             c1 ∈ collect_elements
               [⟨.other, "Resistor2", "", none, none, some ⟨0, 0, 2, 2⟩, ⟨0, 0⟩, ⟨0, 0⟩⟩,
                ⟨.label, "Label", "R2", some 0, none, some ⟨1, 1, 3, 3⟩, ⟨0, 0⟩, ⟨0, 0⟩⟩]
             ∧ c2 ∈ collect_elements
               [⟨.other, "Resistor2", "", none, none, some ⟨0, 0, 2, 2⟩, ⟨0, 0⟩, ⟨0, 0⟩⟩,
                ⟨.label, "Label", "R2", some 0, none, some ⟨1, 1, 3, 3⟩, ⟨0, 0⟩, ⟨0, 0⟩⟩]
             ∧ c1.element.kind ≠ ElemKind.label ∧ c2.element.kind ≠ ElemKind.label
             ∧ bboxes_overlap c1.bbox c2.bbox = true
             ∧ iss.elements = [c1.eid, c2.eid]) :=
  ⟨by decide,
   overlap_check_excludes_labels
     [⟨.other, "Resistor2", "", none, none, some ⟨0, 0, 2, 2⟩, ⟨0, 0⟩, ⟨0, 0⟩⟩,
      ⟨.label, "Label", "R2", some 0, none, some ⟨1, 1, 3, 3⟩, ⟨0, 0⟩, ⟨0, 0⟩⟩]
     (by decide)⟩

end CircuitWeaver
